import Mathlib

/-!
Verification of the particle boundary-exchange pipeline of bvals_part.cpp
(namespace particles, class ParticlesBoundaryValues).

Machine reals (`Real` in the C++ source) are modelled as exact rationals `ℚ`;
only order comparisons and additions/subtractions of the domain widths are
performed on them, so the branch structure is preserved exactly.
C++ `int` is modelled as `Int`, array indices and element counts as `Nat`.
-/

namespace BvalsPart

/-- Spatial extents of one mesh block or of the whole mesh
(the six fields x1min..x3max read from mb_size / mesh_size). -/
structure RegionSize where
  x1min : ℚ
  x1max : ℚ
  x2min : ℚ
  x2max : ℚ
  x3min : ℚ
  x3max : ℚ
deriving DecidableEq

/-- Modelled from the spec: the NeighborBlock descriptor type is declared in a
mesh header that is not among the provided sources; the spec lists its fields
as neighbor global id, owning rank, and an existence flag.  The code in
bvals_part.cpp reads only the gid and rank fields. -/
structure NeighborBlock where
  gid : Int
  rank : Int
  ex : Bool
deriving DecidableEq

/-- One entry of sendlist_buf: (1) index of particle in prtcl array,
(2) destination GID, (3) destination rank. -/
structure ParticleSendData where
  prtcl_indx : Nat
  dest_gid : Int
  dest_rank : Int
deriving DecidableEq

/-- One particle: owning-block gid (prtcl_gid) and position (prtcl_pos). -/
structure Particle where
  gid : Int
  x1 : ℚ
  x2 : ℚ
  x3 : ℚ
deriving DecidableEq

/-- The shared state mutated through UpdateGID: the atomic departure counter
and the send-list buffer it indexes into. -/
structure DetectorState where
  counter : Nat
  sendlist : List ParticleSendData
deriving DecidableEq

/-- Models particles::UpdateGID: unconditionally overwrite the particle's gid
with the neighbor entry's gid; if the neighbor lives on a different rank,
atomically claim the next send-list slot and record
(particle index, destination gid, destination rank) there. -/
def UpdateGID (nghbr : NeighborBlock) (myrank : Int) (p : Nat)
    (st : DetectorState) : Int × DetectorState :=
  (nghbr.gid,
    if nghbr.rank ≠ myrank then
      { counter := st.counter + 1,
        sendlist := st.sendlist ++
          [{ prtcl_indx := p, dest_gid := nghbr.gid, dest_rank := nghbr.rank }] }
    else st)

/-- The nested range tests of SetNewPrtclGID, lines 69-173 of bvals_part.cpp,
returning the neighbor slot index passed to UpdateGID (none when no branch
fires).  The branch structure is reproduced verbatim, including the final
x3-face branch which tests `x2 < mb.x2min` (as the source does on line 165)
rather than `x3 < mb.x3min`. -/
def resolveSlot (mb : RegionSize) (x1 x2 x3 : ℚ) : Option Nat :=
  if x1 < mb.x1min then
    if x2 < mb.x2min then
      if x3 < mb.x3min then
        -- corner
        some 48
      else if x3 > mb.x3max then
        -- corner
        some 52
      else
        -- x1x2 edge
        some 16
    else if x2 > mb.x2max then
      if x3 < mb.x3min then
        -- corner
        some 50
      else if x3 > mb.x3max then
        -- corner
        some 54
      else
        -- x1x2 edge
        some 20
    else
      if x3 < mb.x3min then
        -- x3x1 edge
        some 32
      else if x3 > mb.x3max then
        -- x3x1 edge
        some 36
      else
        -- x1 face
        some 0
  else if x1 > mb.x1max then
    if x2 < mb.x2min then
      if x3 < mb.x3min then
        -- corner
        some 49
      else if x3 > mb.x3max then
        -- corner
        some 53
      else
        -- x1x2 edge
        some 18
    else if x2 > mb.x2max then
      if x3 < mb.x3min then
        -- corner
        some 51
      else if x3 > mb.x3max then
        -- corner
        some 55
      else
        -- x1x2 edge
        some 22
    else
      if x3 < mb.x3min then
        -- x3x1 edge
        some 34
      else if x3 > mb.x3max then
        -- x3x1 edge
        some 38
      else
        -- x1 face
        some 4
  else
    if x2 < mb.x2min then
      if x3 < mb.x3min then
        -- x2x3 edge
        some 40
      else if x3 > mb.x3max then
        -- x2x3 edge
        some 44
      else
        -- x2 face
        some 8
    else if x2 > mb.x2max then
      if x3 < mb.x3min then
        -- x2x3 edge
        some 42
      else if x3 > mb.x3max then
        -- x2x3 edge
        some 46
      else
        -- x2 face
        some 12
    else
      if x2 < mb.x2min then
        -- x3 face
        some 24
      else if x3 > mb.x3max then
        -- x3 face
        some 28
      else
        none

/-- One axis of the periodic position reset, lines 176-190: add the domain
width when below the minimum, subtract it when above the maximum. -/
def wrapAxis (lo hi x : ℚ) : ℚ :=
  if x < lo then x + (hi - lo)
  else if x > hi then x - (hi - lo)
  else x

/-- The body of the par_for kernel of SetNewPrtclGID for one particle with
index p: resolve the neighbor slot from the owning block's extents (block
index m = gid - gids), update the gid/ send list through UpdateGID when a
slot fires, and apply the periodic wrap to the position snapshot on each
axis unconditionally. -/
def SetNewPrtclGIDStep (gids : Int) (mbsize : Int → RegionSize)
    (nghbr : Int → Nat → NeighborBlock) (meshsize : RegionSize) (myrank : Int)
    (p : Nat) (prt : Particle) (st : DetectorState) : Particle × DetectorState :=
  let m := prt.gid - gids
  let gs : Int × DetectorState :=
    match resolveSlot (mbsize m) prt.x1 prt.x2 prt.x3 with
    | some slot => UpdateGID (nghbr m slot) myrank p st
    | none => (prt.gid, st)
  ({ gid := gs.1,
     x1 := wrapAxis meshsize.x1min meshsize.x1max prt.x1,
     x2 := wrapAxis meshsize.x2min meshsize.x2max prt.x2,
     x3 := wrapAxis meshsize.x3min meshsize.x3max prt.x3 }, gs.2)

/-- The par_for loop of SetNewPrtclGID over particle indices p, p+1, ....
The kernel is data-parallel with the atomic counter as the only ordering
between lanes; ascending index order is taken as the canonical schedule
(the claims proved below depend only on counts and per-particle effects). -/
def detectorAux (gids : Int) (mbsize : Int → RegionSize)
    (nghbr : Int → Nat → NeighborBlock) (meshsize : RegionSize) (myrank : Int) :
    Nat → List Particle → DetectorState → List Particle × DetectorState
  | _, [], st => ([], st)
  | p, prt :: rest, st =>
    let r1 := SetNewPrtclGIDStep gids mbsize nghbr meshsize myrank p prt st
    let r2 := detectorAux gids mbsize nghbr meshsize myrank (p + 1) rest r1.2
    (r1.1 :: r2.1, r2.2)

/-- ParticlesBoundaryValues::SetNewPrtclGID: run the detector kernel over all
particles, starting from counter = 0 and an empty send list; afterwards
nprtcl_send is the final counter value. -/
def SetNewPrtclGID (gids : Int) (mbsize : Int → RegionSize)
    (nghbr : Int → Nat → NeighborBlock) (meshsize : RegionSize) (myrank : Int)
    (prtcls : List Particle) : List Particle × DetectorState :=
  detectorAux gids mbsize nghbr meshsize myrank 0 prtcls
    { counter := 0, sendlist := [] }

/-! Stage 2: CountSendsAndRecvs (transfer-list builder and global rendezvous). -/

/-- One {source rank, destination rank, particle count} record, the
std::tuple of 3 ints held in sends_thisrank / sends_allranks / recvs_thisrank.
The count is a run length of the send list, hence non-negative. -/
structure TrafficTriple where
  sendrank : Int
  destrank : Int
  count : Nat
deriving DecidableEq

/-- Ordering of send-list records used by the host-side sort. -/
def rankLe (a b : ParticleSendData) : Prop := a.dest_rank ≤ b.dest_rank

instance : DecidableRel rankLe := fun a b =>
  inferInstanceAs (Decidable (a.dest_rank ≤ b.dest_rank))

instance : IsTotal ParticleSendData rankLe := ⟨fun a b => le_total a.dest_rank b.dest_rank⟩

instance : IsTrans ParticleSendData rankLe := ⟨fun _ _ _ h1 h2 => le_trans h1 h2⟩

/-- Modelled from the spec: the comparator SortByRank is declared in a header
not among the provided sources; the spec and the code comment above the
std::sort call say the send list is sorted by destination rank (stability of
ties is explicitly not required, so any sort by dest_rank is admissible). -/
def sortByRank (l : List ParticleSendData) : List ParticleSendData :=
  List.insertionSort rankLe l

/-- The run-coalescing loop of CountSendsAndRecvs, lines 233-242: `rank` and
`nprtcl` hold the destination rank and length of the current run; on a rank
change the finished run is appended as a (myrank, rank, nprtcl) triple, and
the final run is appended after the loop. -/
def coalesceAux (myrank rank : Int) (nprtcl : Nat) :
    List ParticleSendData → List TrafficTriple
  | [] => [{ sendrank := myrank, destrank := rank, count := nprtcl }]
  | r :: rest =>
    if r.dest_rank = rank then coalesceAux myrank rank (nprtcl + 1) rest
    else { sendrank := myrank, destrank := rank, count := nprtcl } ::
      coalesceAux myrank r.dest_rank 1 rest

/-- Construction of sends_thisrank from the (sorted) send list, lines 227-243:
empty when nprtcl_send = 0, otherwise the run is seeded from element 0 and the
remaining elements are walked once. -/
def sends_thisrank (myrank : Int) : List ParticleSendData → List TrafficTriple
  | [] => []
  | r :: rest => coalesceAux myrank r.dest_rank 1 rest

/-- The global triple array sends_allranks produced by the rendezvous
(MPI_Allgatherv with the prefix-sum displacement table nsends_displ): rank r's
triples occupy the slice starting at displ r, so the array is the
concatenation of the per-rank triple lists in rank order. -/
def sends_allranks (tr : Nat → List TrafficTriple) : Nat → List TrafficTriple
  | 0 => []
  | n + 1 => sends_allranks tr n ++ tr n

/-! Stage 4 and 5: InitPrtclRecv and PackAndSendPrtcls. -/

/-- The accumulation loops computing nprtcl_recv (lines 339-342) and
nprtcl_send (lines 383-386): sum the count field over a triple list. -/
def sumCounts (l : List TrafficTriple) : Nat :=
  l.foldl (fun acc t => acc + t.count) 0

/-- Selection of this rank's inbound triples from the global array,
lines 328-335: keep the triples whose destination rank equals my_rank. -/
def recvs_thisrank (all : List TrafficTriple) (myrank : Int) :
    List TrafficTriple :=
  all.filter (fun t => t.destrank = myrank)

/-- nprtcl_recv: total number of particles this rank will receive. -/
def nprtcl_recv (all : List TrafficTriple) (myrank : Int) : Nat :=
  sumCounts (recvs_thisrank all myrank)

/-- One posted non-blocking MPI operation: the half-open buffer segment
[start, stop) given to the subview, and the peer rank passed to MPI. -/
structure MpiPost where
  start : Nat
  stop : Nat
  peer : Int
deriving DecidableEq

/-- The receive-posting loop of InitPrtclRecv, lines 349-364.  In the source,
data_start is initialized to 0 before the loop and never reassigned inside
it, so every iteration computes data_end = data_start + count with the same
data_start; the recursion therefore passes data_start through unchanged.
The peer is std::get<0>, the source rank. -/
def recvPostLoop (data_start : Nat) : List TrafficTriple → List MpiPost
  | [] => []
  | t :: rest =>
    { start := data_start, stop := data_start + t.count, peer := t.sendrank } ::
      recvPostLoop data_start rest

/-- The non-blocking receives posted by InitPrtclRecv, in triple-list order. -/
def InitPrtclRecvPosts (recvs : List TrafficTriple) : List MpiPost :=
  recvPostLoop 0 recvs

/-- Modelled from the spec: the Receive Initiator contract says the offsets
into the receive buffer are assigned in the same order as the inbound triple
list, so segment n starts at the sum of the counts of triples 0..n-1 and has
length equal to triple n's count; the running offset advances by each count. -/
def specRecvPostLoop (data_start : Nat) : List TrafficTriple → List MpiPost
  | [] => []
  | t :: rest =>
    { start := data_start, stop := data_start + t.count, peer := t.sendrank } ::
      specRecvPostLoop (data_start + t.count) rest

/-- The send-posting loop of PackAndSendPrtcls, lines 410-425.  As in
InitPrtclRecv, data_start is initialized to 0 and never reassigned inside the
loop.  The peer is std::get<1>, the destination rank. -/
def sendPostLoop (data_start : Nat) : List TrafficTriple → List MpiPost
  | [] => []
  | t :: rest =>
    { start := data_start, stop := data_start + t.count, peer := t.destrank } ::
      sendPostLoop data_start rest

/-- The non-blocking sends posted by PackAndSendPrtcls: nothing is allocated
or posted unless nprtcl_send (the sum of the outbound counts) is non-zero. -/
def PackAndSendPosts (sends : List TrafficTriple) : List MpiPost :=
  if 0 < sumCounts sends then sendPostLoop 0 sends else []

/-- Modelled from the spec: the Pack-and-Send contract says the n-th send
covers the contiguous sub-range of the send buffer owned by outbound triple n,
starting at the sum of the counts of triples 0..n-1; the running offset
advances by each count.  The peer is the triple's destination rank. -/
def specSendPostLoop (data_start : Nat) : List TrafficTriple → List MpiPost
  | [] => []
  | t :: rest =>
    { start := data_start, stop := data_start + t.count, peer := t.destrank } ::
      specSendPostLoop (data_start + t.count) rest

/-! Theorems for the claims. -/

/-- C1: the claim says the receive posted for inbound triple n covers the
contiguous buffer segment starting at the sum of the counts of triples
0..n-1, so segments are disjoint.  The code never advances data_start inside
the posting loop, so with inbound triples (0,1,2) and (2,1,3) the two
receives cover the overlapping segments [0,2) and [0,3) of the receive
buffer, while the spec-modelled assignment covers [0,2) and [2,5). -/
theorem c1_recv_buffer_offsets_code_bug :
    InitPrtclRecvPosts [⟨0, 1, 2⟩, ⟨2, 1, 3⟩] = [⟨0, 2, 0⟩, ⟨0, 3, 2⟩] ∧
    specRecvPostLoop 0 [⟨0, 1, 2⟩, ⟨2, 1, 3⟩] = [⟨0, 2, 0⟩, ⟨2, 5, 2⟩] ∧
    InitPrtclRecvPosts [⟨0, 1, 2⟩, ⟨2, 1, 3⟩]
      ≠ specRecvPostLoop 0 [⟨0, 1, 2⟩, ⟨2, 1, 3⟩] := by
  refine ⟨rfl, rfl, ?_⟩
  decide

/-- C2: the claim says the n-th posted send covers the contiguous sub-range
of the send buffer starting at the sum of the counts of triples 0..n-1, the
sub-ranges tiling the whole buffer.  The code never advances data_start
inside the posting loop, so with outbound triples (1,0,2) and (1,2,3) (total
5, so the guard nprtcl_send > 0 passes) the two sends carry the overlapping
segments [0,2) and [0,3) instead of [0,2) and [2,5); the destination ranks 0
and 2 are as claimed. -/
theorem c2_send_buffer_offsets_code_bug :
    PackAndSendPosts [⟨1, 0, 2⟩, ⟨1, 2, 3⟩] = [⟨0, 2, 0⟩, ⟨0, 3, 2⟩] ∧
    specSendPostLoop 0 [⟨1, 0, 2⟩, ⟨1, 2, 3⟩] = [⟨0, 2, 0⟩, ⟨2, 5, 2⟩] ∧
    PackAndSendPosts [⟨1, 0, 2⟩, ⟨1, 2, 3⟩]
      ≠ specSendPostLoop 0 [⟨1, 0, 2⟩, ⟨1, 2, 3⟩] := by
  refine ⟨by decide, rfl, by decide⟩

/-- C3: the claim says a particle past exactly the low-x3 face resolves the
face slot 24 and has its gid overwritten with that neighbor's gid.  On the
x3-face branch the source tests `x2 < x2min` (line 165) instead of
`x3 < x3min`, inside a branch where x2 is within extents, so the slot-24
branch can never fire: a particle of the block [0,4]^3 at (2, 2, -2)
resolves no slot at all and its gid and the send list are left untouched,
while the mirrored particle at (2, 2, 6) does resolve the high-x3 face
slot 28. -/
theorem c3_low_x3_face_code_bug :
    resolveSlot ⟨0, 4, 0, 4, 0, 4⟩ 2 2 (-2) = none ∧
    (SetNewPrtclGIDStep 0 (fun _ => ⟨0, 4, 0, 4, 0, 4⟩)
        (fun _ s => ⟨100 + (s : Int), 1, true⟩) ⟨0, 8, 0, 8, 0, 8⟩ 0
        0 ⟨0, 2, 2, -2⟩ ⟨0, []⟩).1.gid = 0 ∧
    (SetNewPrtclGIDStep 0 (fun _ => ⟨0, 4, 0, 4, 0, 4⟩)
        (fun _ s => ⟨100 + (s : Int), 1, true⟩) ⟨0, 8, 0, 8, 0, 8⟩ 0
        0 ⟨0, 2, 2, -2⟩ ⟨0, []⟩).2 = ⟨0, []⟩ ∧
    resolveSlot ⟨0, 4, 0, 4, 0, 4⟩ 2 2 6 = some 28 := by
  have hnone : resolveSlot ⟨0, 4, 0, 4, 0, 4⟩ 2 2 (-2) = none := by
    norm_num [resolveSlot]
  refine ⟨hnone, ?_, ?_, by norm_num [resolveSlot]⟩
  · simp [SetNewPrtclGIDStep, hnone]
  · simp [SetNewPrtclGIDStep, hnone]

/-- The six face slots of the neighbor table: low-x1, high-x1, low-x2,
high-x2, low-x3, high-x3. -/
def faceSlots : List Nat := [0, 4, 8, 12, 24, 28]

/-- C4: a particle beyond the extents of its well-formed owning block on
exactly two axes resolves the edge slot of that axis pair and direction pair,
and beyond on all three axes resolves the corner slot of the corresponding
octant of the fixed table (low/low/low = 48), never a face slot; resolveSlot
is a function, so no particle ever resolves two slots. -/
theorem c4_edge_corner_slots (mb : RegionSize) (x1 x2 x3 : ℚ)
    (hwf1 : mb.x1min ≤ mb.x1max) (hwf2 : mb.x2min ≤ mb.x2max)
    (hwf3 : mb.x3min ≤ mb.x3max) :
    (x1 < mb.x1min → x2 < mb.x2min → mb.x3min ≤ x3 → x3 ≤ mb.x3max →
      resolveSlot mb x1 x2 x3 = some 16 ∧ 16 ∉ faceSlots) ∧
    (x1 < mb.x1min → mb.x2max < x2 → mb.x3min ≤ x3 → x3 ≤ mb.x3max →
      resolveSlot mb x1 x2 x3 = some 20 ∧ 20 ∉ faceSlots) ∧
    (mb.x1max < x1 → x2 < mb.x2min → mb.x3min ≤ x3 → x3 ≤ mb.x3max →
      resolveSlot mb x1 x2 x3 = some 18 ∧ 18 ∉ faceSlots) ∧
    (mb.x1max < x1 → mb.x2max < x2 → mb.x3min ≤ x3 → x3 ≤ mb.x3max →
      resolveSlot mb x1 x2 x3 = some 22 ∧ 22 ∉ faceSlots) ∧
    (x1 < mb.x1min → mb.x2min ≤ x2 → x2 ≤ mb.x2max → x3 < mb.x3min →
      resolveSlot mb x1 x2 x3 = some 32 ∧ 32 ∉ faceSlots) ∧
    (x1 < mb.x1min → mb.x2min ≤ x2 → x2 ≤ mb.x2max → mb.x3max < x3 →
      resolveSlot mb x1 x2 x3 = some 36 ∧ 36 ∉ faceSlots) ∧
    (mb.x1max < x1 → mb.x2min ≤ x2 → x2 ≤ mb.x2max → x3 < mb.x3min →
      resolveSlot mb x1 x2 x3 = some 34 ∧ 34 ∉ faceSlots) ∧
    (mb.x1max < x1 → mb.x2min ≤ x2 → x2 ≤ mb.x2max → mb.x3max < x3 →
      resolveSlot mb x1 x2 x3 = some 38 ∧ 38 ∉ faceSlots) ∧
    (mb.x1min ≤ x1 → x1 ≤ mb.x1max → x2 < mb.x2min → x3 < mb.x3min →
      resolveSlot mb x1 x2 x3 = some 40 ∧ 40 ∉ faceSlots) ∧
    (mb.x1min ≤ x1 → x1 ≤ mb.x1max → x2 < mb.x2min → mb.x3max < x3 →
      resolveSlot mb x1 x2 x3 = some 44 ∧ 44 ∉ faceSlots) ∧
    (mb.x1min ≤ x1 → x1 ≤ mb.x1max → mb.x2max < x2 → x3 < mb.x3min →
      resolveSlot mb x1 x2 x3 = some 42 ∧ 42 ∉ faceSlots) ∧
    (mb.x1min ≤ x1 → x1 ≤ mb.x1max → mb.x2max < x2 → mb.x3max < x3 →
      resolveSlot mb x1 x2 x3 = some 46 ∧ 46 ∉ faceSlots) ∧
    (x1 < mb.x1min → x2 < mb.x2min → x3 < mb.x3min →
      resolveSlot mb x1 x2 x3 = some 48 ∧ 48 ∉ faceSlots) ∧
    (x1 < mb.x1min → x2 < mb.x2min → mb.x3max < x3 →
      resolveSlot mb x1 x2 x3 = some 52 ∧ 52 ∉ faceSlots) ∧
    (x1 < mb.x1min → mb.x2max < x2 → x3 < mb.x3min →
      resolveSlot mb x1 x2 x3 = some 50 ∧ 50 ∉ faceSlots) ∧
    (x1 < mb.x1min → mb.x2max < x2 → mb.x3max < x3 →
      resolveSlot mb x1 x2 x3 = some 54 ∧ 54 ∉ faceSlots) ∧
    (mb.x1max < x1 → x2 < mb.x2min → x3 < mb.x3min →
      resolveSlot mb x1 x2 x3 = some 49 ∧ 49 ∉ faceSlots) ∧
    (mb.x1max < x1 → x2 < mb.x2min → mb.x3max < x3 →
      resolveSlot mb x1 x2 x3 = some 53 ∧ 53 ∉ faceSlots) ∧
    (mb.x1max < x1 → mb.x2max < x2 → x3 < mb.x3min →
      resolveSlot mb x1 x2 x3 = some 51 ∧ 51 ∉ faceSlots) ∧
    (mb.x1max < x1 → mb.x2max < x2 → mb.x3max < x3 →
      resolveSlot mb x1 x2 x3 = some 55 ∧ 55 ∉ faceSlots) := by
  refine ⟨?_, ?_, ?_, ?_, ?_, ?_, ?_, ?_, ?_, ?_, ?_, ?_, ?_, ?_, ?_, ?_,
    ?_, ?_, ?_, ?_⟩
  · intro h1 h2 h3 h4
    refine ⟨?_, by decide⟩
    simp only [resolveSlot]
    rw [if_pos h1, if_pos h2, if_neg (not_lt.mpr h3), if_neg (not_lt.mpr h4)]
  · intro h1 h2 h3 h4
    refine ⟨?_, by decide⟩
    simp only [resolveSlot]
    rw [if_pos h1, if_neg (not_lt.mpr (hwf2.trans h2.le)), if_pos h2,
      if_neg (not_lt.mpr h3), if_neg (not_lt.mpr h4)]
  · intro h1 h2 h3 h4
    refine ⟨?_, by decide⟩
    simp only [resolveSlot]
    rw [if_neg (not_lt.mpr (hwf1.trans h1.le)), if_pos h1, if_pos h2,
      if_neg (not_lt.mpr h3), if_neg (not_lt.mpr h4)]
  · intro h1 h2 h3 h4
    refine ⟨?_, by decide⟩
    simp only [resolveSlot]
    rw [if_neg (not_lt.mpr (hwf1.trans h1.le)), if_pos h1,
      if_neg (not_lt.mpr (hwf2.trans h2.le)), if_pos h2,
      if_neg (not_lt.mpr h3), if_neg (not_lt.mpr h4)]
  · intro h1 h2 h3 h4
    refine ⟨?_, by decide⟩
    simp only [resolveSlot]
    rw [if_pos h1, if_neg (not_lt.mpr h2), if_neg (not_lt.mpr h3), if_pos h4]
  · intro h1 h2 h3 h4
    refine ⟨?_, by decide⟩
    simp only [resolveSlot]
    rw [if_pos h1, if_neg (not_lt.mpr h2), if_neg (not_lt.mpr h3),
      if_neg (not_lt.mpr (hwf3.trans h4.le)), if_pos h4]
  · intro h1 h2 h3 h4
    refine ⟨?_, by decide⟩
    simp only [resolveSlot]
    rw [if_neg (not_lt.mpr (hwf1.trans h1.le)), if_pos h1,
      if_neg (not_lt.mpr h2), if_neg (not_lt.mpr h3), if_pos h4]
  · intro h1 h2 h3 h4
    refine ⟨?_, by decide⟩
    simp only [resolveSlot]
    rw [if_neg (not_lt.mpr (hwf1.trans h1.le)), if_pos h1,
      if_neg (not_lt.mpr h2), if_neg (not_lt.mpr h3),
      if_neg (not_lt.mpr (hwf3.trans h4.le)), if_pos h4]
  · intro h1 h2 h3 h4
    refine ⟨?_, by decide⟩
    simp only [resolveSlot]
    rw [if_neg (not_lt.mpr h1), if_neg (not_lt.mpr h2), if_pos h3, if_pos h4]
  · intro h1 h2 h3 h4
    refine ⟨?_, by decide⟩
    simp only [resolveSlot]
    rw [if_neg (not_lt.mpr h1), if_neg (not_lt.mpr h2), if_pos h3,
      if_neg (not_lt.mpr (hwf3.trans h4.le)), if_pos h4]
  · intro h1 h2 h3 h4
    refine ⟨?_, by decide⟩
    simp only [resolveSlot]
    rw [if_neg (not_lt.mpr h1), if_neg (not_lt.mpr h2),
      if_neg (not_lt.mpr (hwf2.trans h3.le)), if_pos h3, if_pos h4]
  · intro h1 h2 h3 h4
    refine ⟨?_, by decide⟩
    simp only [resolveSlot]
    rw [if_neg (not_lt.mpr h1), if_neg (not_lt.mpr h2),
      if_neg (not_lt.mpr (hwf2.trans h3.le)), if_pos h3,
      if_neg (not_lt.mpr (hwf3.trans h4.le)), if_pos h4]
  · intro h1 h2 h3
    refine ⟨?_, by decide⟩
    simp only [resolveSlot]
    rw [if_pos h1, if_pos h2, if_pos h3]
  · intro h1 h2 h3
    refine ⟨?_, by decide⟩
    simp only [resolveSlot]
    rw [if_pos h1, if_pos h2, if_neg (not_lt.mpr (hwf3.trans h3.le)),
      if_pos h3]
  · intro h1 h2 h3
    refine ⟨?_, by decide⟩
    simp only [resolveSlot]
    rw [if_pos h1, if_neg (not_lt.mpr (hwf2.trans h2.le)), if_pos h2,
      if_pos h3]
  · intro h1 h2 h3
    refine ⟨?_, by decide⟩
    simp only [resolveSlot]
    rw [if_pos h1, if_neg (not_lt.mpr (hwf2.trans h2.le)), if_pos h2,
      if_neg (not_lt.mpr (hwf3.trans h3.le)), if_pos h3]
  · intro h1 h2 h3
    refine ⟨?_, by decide⟩
    simp only [resolveSlot]
    rw [if_neg (not_lt.mpr (hwf1.trans h1.le)), if_pos h1, if_pos h2,
      if_pos h3]
  · intro h1 h2 h3
    refine ⟨?_, by decide⟩
    simp only [resolveSlot]
    rw [if_neg (not_lt.mpr (hwf1.trans h1.le)), if_pos h1, if_pos h2,
      if_neg (not_lt.mpr (hwf3.trans h3.le)), if_pos h3]
  · intro h1 h2 h3
    refine ⟨?_, by decide⟩
    simp only [resolveSlot]
    rw [if_neg (not_lt.mpr (hwf1.trans h1.le)), if_pos h1,
      if_neg (not_lt.mpr (hwf2.trans h2.le)), if_pos h2, if_pos h3]
  · intro h1 h2 h3
    refine ⟨?_, by decide⟩
    simp only [resolveSlot]
    rw [if_neg (not_lt.mpr (hwf1.trans h1.le)), if_pos h1,
      if_neg (not_lt.mpr (hwf2.trans h2.le)), if_pos h2,
      if_neg (not_lt.mpr (hwf3.trans h3.le)), if_pos h3]

/-- C4 witness: the low-x/low-y/low-z corner of the unit block resolves
slot 48, which is not a face slot. -/
theorem c4_edge_corner_slots_witness :
    resolveSlot ⟨0, 1, 0, 1, 0, 1⟩ (-1) (-1) (-1) = some 48 ∧
      48 ∉ faceSlots :=
  (c4_edge_corner_slots ⟨0, 1, 0, 1, 0, 1⟩ (-1) (-1) (-1)
        (by norm_num) (by norm_num)
        (by norm_num)).2.2.2.2.2.2.2.2.2.2.2.2.1
    (by norm_num) (by norm_num) (by norm_num)

/-- C8: the detector kernel rewrites each position component through the
periodic wrap of the corresponding mesh axis unconditionally — independent of
the block-boundary logic and of whether the particle changed owning block —
and on each axis a position above the domain maximum is decreased by the
domain width, one below the domain minimum is increased by it; in particular
a particle at domain_max + delta with 0 < delta < width ends at
domain_min + delta. -/
theorem c8_periodic_wrap (gids : Int) (mbsize : Int → RegionSize)
    (nghbr : Int → Nat → NeighborBlock) (meshsize : RegionSize) (myrank : Int)
    (p : Nat) (prt : Particle) (st : DetectorState) :
    ((SetNewPrtclGIDStep gids mbsize nghbr meshsize myrank p prt st).1.x1
        = wrapAxis meshsize.x1min meshsize.x1max prt.x1 ∧
      (SetNewPrtclGIDStep gids mbsize nghbr meshsize myrank p prt st).1.x2
        = wrapAxis meshsize.x2min meshsize.x2max prt.x2 ∧
      (SetNewPrtclGIDStep gids mbsize nghbr meshsize myrank p prt st).1.x3
        = wrapAxis meshsize.x3min meshsize.x3max prt.x3) ∧
    (∀ lo hi x : ℚ, lo ≤ hi → hi < x → wrapAxis lo hi x = x - (hi - lo)) ∧
    (∀ lo hi x : ℚ, x < lo → wrapAxis lo hi x = x + (hi - lo)) ∧
    (∀ lo hi d : ℚ, 0 < d → d < hi - lo →
      wrapAxis lo hi (hi + d) = lo + d) := by
  refine ⟨⟨?_, ?_, ?_⟩, ?_, ?_, ?_⟩
  · simp [SetNewPrtclGIDStep]
  · simp [SetNewPrtclGIDStep]
  · simp [SetNewPrtclGIDStep]
  · intro lo hi x hle hlt
    rw [wrapAxis, if_neg (not_lt.mpr (hle.trans hlt.le)), if_pos hlt]
  · intro lo hi x hlt
    rw [wrapAxis, if_pos hlt]
  · intro lo hi d hd hw
    have hlo : lo ≤ hi := by linarith
    have h1 : ¬(hi + d < lo) := by linarith
    have h2 : hi < hi + d := by linarith
    rw [wrapAxis, if_neg h1, if_pos h2]
    ring

/-- C8 witness: with domain [0, 10], a particle at 10 + 2 is wrapped to
0 + 2 by the theorem's last clause. -/
theorem c8_periodic_wrap_witness : wrapAxis 0 10 (10 + 2) = 0 + 2 :=
  (c8_periodic_wrap 0 (fun _ => ⟨0, 1, 0, 1, 0, 1⟩) (fun _ _ => ⟨0, 0, true⟩)
        ⟨0, 1, 0, 1, 0, 1⟩ 0 0 ⟨0, 0, 0, 0⟩ ⟨0, []⟩).2.2.2 0 10 2
    (by norm_num) (by norm_num)

/-- C9: a particle strictly inside all six extents of its owning block keeps
its gid, contributes nothing to the departure counter or the send list, and
keeps its position on every axis that is within the global domain extents. -/
theorem c9_no_crossing_frame (gids : Int) (mbsize : Int → RegionSize)
    (nghbr : Int → Nat → NeighborBlock) (meshsize : RegionSize) (myrank : Int)
    (p : Nat) (prt : Particle) (st : DetectorState)
    (h1 : (mbsize (prt.gid - gids)).x1min ≤ prt.x1)
    (h2 : prt.x1 ≤ (mbsize (prt.gid - gids)).x1max)
    (h3 : (mbsize (prt.gid - gids)).x2min ≤ prt.x2)
    (h4 : prt.x2 ≤ (mbsize (prt.gid - gids)).x2max)
    (h5 : (mbsize (prt.gid - gids)).x3min ≤ prt.x3)
    (h6 : prt.x3 ≤ (mbsize (prt.gid - gids)).x3max) :
    (SetNewPrtclGIDStep gids mbsize nghbr meshsize myrank p prt st).1.gid
        = prt.gid ∧
    (SetNewPrtclGIDStep gids mbsize nghbr meshsize myrank p prt st).2 = st ∧
    (meshsize.x1min ≤ prt.x1 → prt.x1 ≤ meshsize.x1max →
      (SetNewPrtclGIDStep gids mbsize nghbr meshsize myrank p prt st).1.x1
        = prt.x1) ∧
    (meshsize.x2min ≤ prt.x2 → prt.x2 ≤ meshsize.x2max →
      (SetNewPrtclGIDStep gids mbsize nghbr meshsize myrank p prt st).1.x2
        = prt.x2) ∧
    (meshsize.x3min ≤ prt.x3 → prt.x3 ≤ meshsize.x3max →
      (SetNewPrtclGIDStep gids mbsize nghbr meshsize myrank p prt st).1.x3
        = prt.x3) := by
  have hnone : resolveSlot (mbsize (prt.gid - gids)) prt.x1 prt.x2 prt.x3
      = none := by
    simp only [resolveSlot]
    rw [if_neg (not_lt.mpr h1), if_neg (not_lt.mpr h2),
      if_neg (not_lt.mpr h3), if_neg (not_lt.mpr h4),
      if_neg (not_lt.mpr h3), if_neg (not_lt.mpr h6)]
  refine ⟨?_, ?_, ?_, ?_, ?_⟩
  · simp [SetNewPrtclGIDStep, hnone]
  · simp [SetNewPrtclGIDStep, hnone]
  · intro ha hb
    simp only [SetNewPrtclGIDStep]
    rw [wrapAxis, if_neg (not_lt.mpr ha), if_neg (not_lt.mpr hb)]
  · intro ha hb
    simp only [SetNewPrtclGIDStep]
    rw [wrapAxis, if_neg (not_lt.mpr ha), if_neg (not_lt.mpr hb)]
  · intro ha hb
    simp only [SetNewPrtclGIDStep]
    rw [wrapAxis, if_neg (not_lt.mpr ha), if_neg (not_lt.mpr hb)]

/-- C9 witness: a particle of block [0,4]^3 at (2,2,2), inside the domain
[0,8]^3, keeps its gid 0, its state, and its x1 position. -/
theorem c9_no_crossing_frame_witness :
    (SetNewPrtclGIDStep 0 (fun _ => ⟨0, 4, 0, 4, 0, 4⟩)
        (fun _ s => ⟨100 + (s : Int), 1, true⟩) ⟨0, 8, 0, 8, 0, 8⟩ 0
        0 ⟨0, 2, 2, 2⟩ ⟨0, []⟩).1.gid = 0 ∧
    (SetNewPrtclGIDStep 0 (fun _ => ⟨0, 4, 0, 4, 0, 4⟩)
        (fun _ s => ⟨100 + (s : Int), 1, true⟩) ⟨0, 8, 0, 8, 0, 8⟩ 0
        0 ⟨0, 2, 2, 2⟩ ⟨0, []⟩).2 = ⟨0, []⟩ ∧
    (SetNewPrtclGIDStep 0 (fun _ => ⟨0, 4, 0, 4, 0, 4⟩)
        (fun _ s => ⟨100 + (s : Int), 1, true⟩) ⟨0, 8, 0, 8, 0, 8⟩ 0
        0 ⟨0, 2, 2, 2⟩ ⟨0, []⟩).1.x1 = 2 := by
  have h := c9_no_crossing_frame 0 (fun _ => ⟨0, 4, 0, 4, 0, 4⟩)
    (fun _ s => ⟨100 + (s : Int), 1, true⟩) ⟨0, 8, 0, 8, 0, 8⟩ 0
    0 ⟨0, 2, 2, 2⟩ ⟨0, []⟩ (by norm_num) (by norm_num) (by norm_num)
    (by norm_num) (by norm_num) (by norm_num)
  exact ⟨h.1, h.2.1, h.2.2.1 (by norm_num) (by norm_num)⟩

/-- C10: whenever a slot is resolved, the particle's gid is overwritten with
the gid field of that slot's neighbor-table entry, whatever the entry's
existence flag or rank hold — the table is universally quantified, so the new
gid is exactly the stored value even for a nonexistent neighbor with a
negative sentinel gid. -/
theorem c10_gid_overwrite_ignores_existence (gids : Int)
    (mbsize : Int → RegionSize) (nghbr : Int → Nat → NeighborBlock)
    (meshsize : RegionSize) (myrank : Int) (p : Nat) (prt : Particle)
    (st : DetectorState) (s : Nat)
    (h : resolveSlot (mbsize (prt.gid - gids)) prt.x1 prt.x2 prt.x3
      = some s) :
    (SetNewPrtclGIDStep gids mbsize nghbr meshsize myrank p prt st).1.gid
      = (nghbr (prt.gid - gids) s).gid := by
  simp [SetNewPrtclGIDStep, h, UpdateGID]

/-- C10 witness: a particle past the low-x1 face of the unit block, whose
slot-0 table entry is the nonexistent neighbor (gid -7, existence flag
false), gets gid -7. -/
theorem c10_gid_overwrite_ignores_existence_witness :
    (SetNewPrtclGIDStep 0 (fun _ => ⟨0, 1, 0, 1, 0, 1⟩)
        (fun _ _ => ⟨-7, 3, false⟩) ⟨0, 8, 0, 8, 0, 8⟩ 0
        0 ⟨0, -1, 0, 0⟩ ⟨0, []⟩).1.gid = -7 :=
  c10_gid_overwrite_ignores_existence 0 (fun _ => ⟨0, 1, 0, 1, 0, 1⟩)
    (fun _ _ => ⟨-7, 3, false⟩) ⟨0, 8, 0, 8, 0, 8⟩ 0 0 ⟨0, -1, 0, 0⟩ ⟨0, []⟩
    0 (by norm_num [resolveSlot])

/-! Helper lemmas about sums, the coalescing walk, and the sort. -/

theorem foldl_add_count (l : List TrafficTriple) (a : Nat) :
    l.foldl (fun acc t => acc + t.count) a
      = a + (l.map TrafficTriple.count).sum := by
  induction l generalizing a with
  | nil => simp
  | cons t rest ih => simp [ih, Nat.add_assoc]

theorem sumCounts_eq_sum_map (l : List TrafficTriple) :
    sumCounts l = (l.map TrafficTriple.count).sum := by
  simp [sumCounts, foldl_add_count]

theorem sumCounts_cons (t : TrafficTriple) (l : List TrafficTriple) :
    sumCounts (t :: l) = t.count + sumCounts l := by
  simp [sumCounts_eq_sum_map]

theorem sumCounts_append (l1 l2 : List TrafficTriple) :
    sumCounts (l1 ++ l2) = sumCounts l1 + sumCounts l2 := by
  simp [sumCounts_eq_sum_map]

theorem coalesceAux_sum (myrank rank : Int) (nprtcl : Nat)
    (l : List ParticleSendData) :
    sumCounts (coalesceAux myrank rank nprtcl l) = nprtcl + l.length := by
  induction l generalizing rank nprtcl with
  | nil => simp [coalesceAux, sumCounts_eq_sum_map]
  | cons a rest ih =>
    by_cases h : a.dest_rank = rank
    · rw [coalesceAux, if_pos h, ih]
      simp
      omega
    · rw [coalesceAux, if_neg h, sumCounts_cons, ih]
      simp
      omega

theorem sends_thisrank_sum (myrank : Int) (l : List ParticleSendData) :
    sumCounts (sends_thisrank myrank l) = l.length := by
  cases l with
  | nil => rfl
  | cons a rest =>
    rw [sends_thisrank, coalesceAux_sum]
    simp only [List.length_cons]
    omega

theorem coalesceAux_sendrank (myrank rank : Int) (nprtcl : Nat)
    (l : List ParticleSendData) :
    ∀ t ∈ coalesceAux myrank rank nprtcl l, t.sendrank = myrank := by
  induction l generalizing rank nprtcl with
  | nil => simp [coalesceAux]
  | cons a rest ih =>
    by_cases h : a.dest_rank = rank
    · rw [coalesceAux, if_pos h]
      exact ih rank (nprtcl + 1)
    · rw [coalesceAux, if_neg h]
      intro t ht
      rcases List.mem_cons.mp ht with h1 | h1
      · rw [h1]
      · exact ih a.dest_rank 1 t h1

theorem coalesceAux_destrank (myrank rank : Int) (nprtcl : Nat)
    (l : List ParticleSendData) :
    ∀ t ∈ coalesceAux myrank rank nprtcl l,
      t.destrank = rank ∨ ∃ a ∈ l, t.destrank = a.dest_rank := by
  induction l generalizing rank nprtcl with
  | nil => simp [coalesceAux]
  | cons a rest ih =>
    by_cases h : a.dest_rank = rank
    · rw [coalesceAux, if_pos h]
      intro t ht
      rcases ih rank (nprtcl + 1) t ht with h1 | ⟨b, hb, h1⟩
      · exact Or.inl h1
      · exact Or.inr ⟨b, List.mem_cons_of_mem a hb, h1⟩
    · rw [coalesceAux, if_neg h]
      intro t ht
      rcases List.mem_cons.mp ht with h1 | h1
      · exact Or.inl (by rw [h1])
      · rcases ih a.dest_rank 1 t h1 with h2 | ⟨b, hb, h2⟩
        · exact Or.inr ⟨a, List.mem_cons_self a rest, h2⟩
        · exact Or.inr ⟨b, List.mem_cons_of_mem a hb, h2⟩

theorem sends_thisrank_destrank (myrank : Int) (l : List ParticleSendData) :
    ∀ t ∈ sends_thisrank myrank l, ∃ a ∈ l, t.destrank = a.dest_rank := by
  cases l with
  | nil => simp [sends_thisrank]
  | cons a rest =>
    intro t ht
    rcases coalesceAux_destrank myrank a.dest_rank 1 rest t ht with h | ⟨b, hb, h⟩
    · exact ⟨a, List.mem_cons_self a rest, h⟩
    · exact ⟨b, List.mem_cons_of_mem a hb, h⟩

theorem coalesceAux_join (myrank rank : Int) (nprtcl : Nat)
    (l : List ParticleSendData) :
    ((coalesceAux myrank rank nprtcl l).map
        (fun t => List.replicate t.count t.destrank)).flatten
      = List.replicate nprtcl rank ++ l.map ParticleSendData.dest_rank := by
  induction l generalizing rank nprtcl with
  | nil => simp [coalesceAux]
  | cons a rest ih =>
    by_cases h : a.dest_rank = rank
    · rw [coalesceAux, if_pos h, ih]
      rw [List.replicate_succ' nprtcl rank]
      simp [h]
    · rw [coalesceAux, if_neg h]
      simp only [List.map_cons, List.flatten_cons, ih]
      simp

theorem coalesceAux_length_sorted (myrank rank : Int) (nprtcl : Nat)
    (l : List ParticleSendData) (hs : List.Sorted rankLe l)
    (hlo : ∀ a ∈ l, rank ≤ a.dest_rank) :
    (coalesceAux myrank rank nprtcl l).length
      = ((rank :: l.map ParticleSendData.dest_rank).dedup).length := by
  induction l generalizing rank nprtcl with
  | nil => simp [coalesceAux]
  | cons a rest ih =>
    rw [List.sorted_cons] at hs
    by_cases h : a.dest_rank = rank
    · rw [coalesceAux, if_pos h]
      have hmem : rank ∈ a.dest_rank :: rest.map ParticleSendData.dest_rank :=
        List.mem_cons.mpr (Or.inl h.symm)
      rw [List.map_cons, List.dedup_cons_of_mem hmem, ← h]
      exact ih a.dest_rank (nprtcl + 1)
        hs.2 (fun b hb => hs.1 b hb)
    · rw [coalesceAux, if_neg h, List.length_cons]
      have hlt : rank < a.dest_rank :=
        lt_of_le_of_ne (hlo a (List.mem_cons_self a rest)) (Ne.symm h)
      have hnm : rank ∉ a.dest_rank :: rest.map ParticleSendData.dest_rank := by
        intro hmem
        rcases List.mem_cons.mp hmem with h1 | h1
        · exact absurd h1.symm h
        · rcases List.mem_map.mp h1 with ⟨b, hb, hbr⟩
          have : a.dest_rank ≤ b.dest_rank := hs.1 b hb
          omega
      rw [List.map_cons, List.dedup_cons_of_not_mem hnm, List.length_cons]
      rw [ih a.dest_rank 1 hs.2 (fun b hb => hs.1 b hb)]

theorem sortByRank_sorted (l : List ParticleSendData) :
    List.Sorted rankLe (sortByRank l) :=
  List.sorted_insertionSort rankLe l

theorem sortByRank_perm (l : List ParticleSendData) :
    List.Perm (sortByRank l) l :=
  List.perm_insertionSort rankLe l

/-- C7: after sorting a departure list by destination rank and coalescing
consecutive equal-rank runs: the sorted list is ordered (hence records with
equal destination rank are contiguous); flattening each triple back into its
run of destination ranks reproduces the sorted list exactly, so every triple
records a run's destination rank and its run length; the number of triples
equals the number of distinct destination ranks present; every triple's
source is the local rank; and an empty departure list yields no triples. -/
theorem c7_sorted_coalesce_runs (myrank : Int) (l : List ParticleSendData) :
    List.Sorted rankLe (sortByRank l) ∧
    ((sends_thisrank myrank (sortByRank l)).map
        (fun t => List.replicate t.count t.destrank)).flatten
      = (sortByRank l).map ParticleSendData.dest_rank ∧
    (sends_thisrank myrank (sortByRank l)).length
      = ((l.map ParticleSendData.dest_rank).dedup).length ∧
    (∀ t ∈ sends_thisrank myrank (sortByRank l), t.sendrank = myrank) ∧
    sends_thisrank myrank (sortByRank []) = [] := by
  have hperm : List.Perm ((sortByRank l).map ParticleSendData.dest_rank)
      (l.map ParticleSendData.dest_rank) := (sortByRank_perm l).map _
  refine ⟨sortByRank_sorted l, ?_, ?_, ?_, rfl⟩
  · cases hsl : sortByRank l with
    | nil => simp [sends_thisrank]
    | cons a rest =>
      rw [sends_thisrank, coalesceAux_join]
      simp
  · cases hsl : sortByRank l with
    | nil =>
      have : l = [] := by
        have := sortByRank_perm l
        rw [hsl] at this
        exact this.symm.eq_nil
      simp [this, sends_thisrank, hsl]
    | cons a rest =>
      have hsorted := sortByRank_sorted l
      rw [hsl, List.sorted_cons] at hsorted
      rw [sends_thisrank,
        coalesceAux_length_sorted myrank a.dest_rank 1 rest hsorted.2
          (fun b hb => hsorted.1 b hb)]
      have : List.Perm
          ((a.dest_rank :: rest.map ParticleSendData.dest_rank).dedup)
          ((l.map ParticleSendData.dest_rank).dedup) := by
        refine List.Perm.dedup ?_
        rw [← List.map_cons, ← hsl]
        exact hperm
      exact this.length_eq
  · intro t ht
    cases hsl : sortByRank l with
    | nil => rw [hsl] at ht; simp [sends_thisrank] at ht
    | cons a rest =>
      rw [hsl] at ht
      exact coalesceAux_sendrank myrank a.dest_rank 1 rest t ht

/-- C7 witness: coalescing the two-record list [(dest 1), (dest 0)] for rank
0 produces the triple (0, 0, 1), whose source rank is the local rank 0. -/
theorem c7_sorted_coalesce_runs_witness :
    ({ sendrank := 0, destrank := 0, count := 1 } : TrafficTriple).sendrank
      = 0 :=
  (c7_sorted_coalesce_runs 0 [⟨0, 5, 1⟩, ⟨1, 6, 0⟩]).2.2.2.1
    ⟨0, 0, 1⟩ (by decide)

theorem step_counter_length (gids : Int) (mbsize : Int → RegionSize)
    (nghbr : Int → Nat → NeighborBlock) (meshsize : RegionSize) (myrank : Int)
    (p : Nat) (prt : Particle) (st : DetectorState)
    (h : st.counter = st.sendlist.length) :
    (SetNewPrtclGIDStep gids mbsize nghbr meshsize myrank p prt st).2.counter
      = (SetNewPrtclGIDStep gids mbsize nghbr meshsize
          myrank p prt st).2.sendlist.length := by
  simp only [SetNewPrtclGIDStep]
  cases hres : resolveSlot (mbsize (prt.gid - gids)) prt.x1 prt.x2 prt.x3 with
  | none => simpa [hres] using h
  | some s =>
    by_cases hr : (nghbr (prt.gid - gids) s).rank = myrank
    · simpa [hres, UpdateGID, hr] using h
    · simp [hres, UpdateGID, hr, h]

theorem detectorAux_counter_length (gids : Int) (mbsize : Int → RegionSize)
    (nghbr : Int → Nat → NeighborBlock) (meshsize : RegionSize) (myrank : Int)
    (prtcls : List Particle) :
    ∀ (p : Nat) (st : DetectorState), st.counter = st.sendlist.length →
      (detectorAux gids mbsize nghbr meshsize myrank p prtcls st).2.counter
        = (detectorAux gids mbsize nghbr meshsize
            myrank p prtcls st).2.sendlist.length := by
  induction prtcls with
  | nil => intro p st h; simpa [detectorAux] using h
  | cons prt rest ih =>
    intro p st h
    simp only [detectorAux]
    exact ih (p + 1) _
      (step_counter_length gids mbsize nghbr meshsize myrank p prt st h)

/-- C6: the final value of the departure counter of SetNewPrtclGID equals
the sum of the run-length counts of the triples CountSendsAndRecvs coalesces
from the sorted copy of the send list the same kernel produced. -/
theorem c6_departure_count_matches_triples (gids : Int)
    (mbsize : Int → RegionSize) (nghbr : Int → Nat → NeighborBlock)
    (meshsize : RegionSize) (myrank : Int) (prtcls : List Particle) :
    sumCounts (sends_thisrank myrank (sortByRank
        (SetNewPrtclGID gids mbsize nghbr meshsize myrank prtcls).2.sendlist))
      = (SetNewPrtclGID gids mbsize nghbr meshsize
          myrank prtcls).2.counter := by
  rw [sends_thisrank_sum, (sortByRank_perm _).length_eq]
  exact (detectorAux_counter_length gids mbsize nghbr meshsize myrank prtcls 0
    ⟨0, []⟩ rfl).symm

/-! Machinery for the global round-trip claim. -/

/-- Summation of f over the rank indices 0..n-1. -/
def sumOver (n : Nat) (f : Nat → Nat) : Nat := ((List.range n).map f).sum

theorem sumOver_succ (n : Nat) (f : Nat → Nat) :
    sumOver (n + 1) f = sumOver n f + f n := by
  simp [sumOver, List.range_succ]

theorem sumOver_eq_zero (n : Nat) (f : Nat → Nat) (h : ∀ r, r < n → f r = 0) :
    sumOver n f = 0 := by
  induction n with
  | zero => rfl
  | succ m ih =>
    rw [sumOver_succ, ih (fun r hr => h r (hr.trans (Nat.lt_succ_self m))),
      h m (Nat.lt_succ_self m)]

theorem sumOver_congr (n : Nat) (f g : Nat → Nat)
    (h : ∀ r, r < n → f r = g r) : sumOver n f = sumOver n g := by
  induction n with
  | zero => rfl
  | succ m ih =>
    rw [sumOver_succ, sumOver_succ,
      ih (fun r hr => h r (hr.trans (Nat.lt_succ_self m))),
      h m (Nat.lt_succ_self m)]

theorem sumOver_add (n : Nat) (f g : Nat → Nat) :
    sumOver n (fun r => f r + g r) = sumOver n f + sumOver n g := by
  induction n with
  | zero => rfl
  | succ m ih =>
    rw [sumOver_succ, sumOver_succ, sumOver_succ, ih]
    omega

theorem sumOver_indicator (n : Nat) (d : Int) (v : Nat) (r0 : Nat)
    (hr0 : r0 < n) (hd : d = (r0 : Int)) :
    sumOver n (fun r => if d = (r : Int) then v else 0) = v := by
  induction n with
  | zero => omega
  | succ m ih =>
    rw [sumOver_succ]
    by_cases hm : r0 = m
    · rw [if_pos (by omega), sumOver_eq_zero]
      · omega
      · intro r hr
        rw [if_neg (by omega)]
    · rw [ih (by omega), if_neg (by omega)]
      omega

theorem recvs_thisrank_cons (t : TrafficTriple) (all : List TrafficTriple)
    (myrank : Int) :
    recvs_thisrank (t :: all) myrank =
      if t.destrank = myrank then t :: recvs_thisrank all myrank
      else recvs_thisrank all myrank := by
  by_cases h : t.destrank = myrank <;> simp [recvs_thisrank, h]

theorem sumCounts_filter_partition (all : List TrafficTriple) (n : Nat)
    (h : ∀ t ∈ all, ∃ r, r < n ∧ t.destrank = (r : Int)) :
    sumOver n (fun r => sumCounts (recvs_thisrank all (r : Int)))
      = sumCounts all := by
  induction all with
  | nil =>
    rw [sumOver_eq_zero]
    · rfl
    · intro r hr; rfl
  | cons t rest ih =>
    have hstep : ∀ r : Nat, sumCounts (recvs_thisrank (t :: rest) (r : Int))
        = (if t.destrank = (r : Int) then t.count else 0)
          + sumCounts (recvs_thisrank rest (r : Int)) := by
      intro r
      rw [recvs_thisrank_cons]
      by_cases hr : t.destrank = (r : Int)
      · rw [if_pos hr, if_pos hr, sumCounts_cons]
      · rw [if_neg hr, if_neg hr, Nat.zero_add]
    rw [sumOver_congr n _ _ (fun r _ => hstep r), sumOver_add]
    rcases h t (List.mem_cons_self t rest) with ⟨r0, hr0, hd⟩
    rw [sumOver_indicator n t.destrank t.count r0 hr0 hd,
      ih (fun s hs => h s (List.mem_cons_of_mem t hs)), sumCounts_cons]

theorem sends_allranks_sum (tr : Nat → List TrafficTriple) (n : Nat) :
    sumCounts (sends_allranks tr n)
      = sumOver n (fun r => sumCounts (tr r)) := by
  induction n with
  | zero => rfl
  | succ m ih => rw [sends_allranks, sumCounts_append, ih, sumOver_succ]

theorem mem_sends_allranks (tr : Nat → List TrafficTriple) (n : Nat)
    (t : TrafficTriple) (h : t ∈ sends_allranks tr n) :
    ∃ r, r < n ∧ t ∈ tr r := by
  induction n with
  | zero => simp [sends_allranks] at h
  | succ m ih =>
    rw [sends_allranks] at h
    rcases List.mem_append.mp h with h1 | h1
    · rcases ih h1 with ⟨r, hr, hm⟩
      exact ⟨r, hr.trans (Nat.lt_succ_self m), hm⟩
    · exact ⟨m, Nat.lt_succ_self m, h1⟩

theorem sends_allranks_eq_nil (tr : Nat → List TrafficTriple) (n : Nat)
    (h : ∀ r, r < n → tr r = []) : sends_allranks tr n = [] := by
  induction n with
  | zero => rfl
  | succ m ih =>
    rw [sends_allranks, ih (fun r hr => h r (hr.trans (Nat.lt_succ_self m))),
      h m (Nat.lt_succ_self m)]
    rfl

/-- The per-rank stage-2 pipeline: rank r sorts its raw departure list by
destination rank and coalesces it into its outbound triples. -/
def stage2Triples (sl : Nat → List ParticleSendData) (r : Nat) :
    List TrafficTriple :=
  sends_thisrank (r : Int) (sortByRank (sl r))

/-- C5: for any number of ranks at least 1 whose departure records all carry
valid destination ranks, the sum over all ranks of the outbound counts of the
stage-2 triples equals the sum over all ranks of the inbound counts each rank
computes in stage 4 by filtering the gathered triple array on its own rank;
and when no rank has any departure, every triple list is empty, every rank
receives nothing, and no receive or send is posted. -/
theorem c5_global_roundtrip (nranks : Nat) (sl : Nat → List ParticleSendData)
    (hr : 1 ≤ nranks)
    (hdest : ∀ r, r < nranks → ∀ a ∈ sl r,
      0 ≤ a.dest_rank ∧ a.dest_rank < (nranks : Int)) :
    sumOver nranks (fun r => sumCounts (stage2Triples sl r))
      = sumOver nranks (fun r =>
          nprtcl_recv (sends_allranks (stage2Triples sl) nranks) (r : Int)) ∧
    ((∀ r, r < nranks → sl r = []) →
      (∀ r, r < nranks → stage2Triples sl r = []) ∧
      sends_allranks (stage2Triples sl) nranks = [] ∧
      (∀ r, r < nranks →
        recvs_thisrank (sends_allranks (stage2Triples sl) nranks) (r : Int)
            = [] ∧
        nprtcl_recv (sends_allranks (stage2Triples sl) nranks) (r : Int)
            = 0 ∧
        InitPrtclRecvPosts
            (recvs_thisrank (sends_allranks (stage2Triples sl) nranks)
              (r : Int)) = [] ∧
        PackAndSendPosts (stage2Triples sl r) = [])) := by
  constructor
  · have hvalid : ∀ t ∈ sends_allranks (stage2Triples sl) nranks,
        ∃ r, r < nranks ∧ t.destrank = (r : Int) := by
      intro t ht
      rcases mem_sends_allranks _ _ t ht with ⟨r, hrn, hmem⟩
      rcases sends_thisrank_destrank (r : Int) (sortByRank (sl r)) t hmem
        with ⟨a, ha, hda⟩
      have hal : a ∈ sl r := (sortByRank_perm (sl r)).mem_iff.mp ha
      rcases hdest r hrn a hal with ⟨hnn, hlt⟩
      refine ⟨a.dest_rank.toNat, ?_, ?_⟩
      · omega
      · omega
    simp only [nprtcl_recv]
    rw [sumCounts_filter_partition _ _ hvalid, sends_allranks_sum]
  · intro hzero
    have htr : ∀ r, r < nranks → stage2Triples sl r = [] := by
      intro r hrn
      rw [stage2Triples, hzero r hrn]
      rfl
    have hall : sends_allranks (stage2Triples sl) nranks = [] :=
      sends_allranks_eq_nil _ _ htr
    refine ⟨htr, hall, ?_⟩
    intro r hrn
    rw [hall, htr r hrn]
    exact ⟨rfl, rfl, rfl, rfl⟩

/-- Departure lists for the C5 witness: rank 0 sends one particle to rank 1,
rank 1 sends nothing. -/
def witnessSl : Nat → List ParticleSendData
  | 0 => [{ prtcl_indx := 0, dest_gid := 9, dest_rank := 1 }]
  | _ => []

/-- C5 witness: with 2 ranks and one departure from rank 0 to rank 1, the
global outbound and inbound count sums agree. -/
theorem c5_global_roundtrip_witness :
    sumOver 2 (fun r => sumCounts (stage2Triples witnessSl r))
      = sumOver 2 (fun r =>
          nprtcl_recv (sends_allranks (stage2Triples witnessSl) 2)
            (r : Int)) := by
  refine (c5_global_roundtrip 2 witnessSl (by norm_num) ?_).1
  intro r hr a ha
  match r with
  | 0 =>
    rw [witnessSl, List.mem_singleton] at ha
    rw [ha]
    constructor <;> norm_num
  | 1 => simp [witnessSl] at ha
  | (n + 2) => omega

end BvalsPart
